import Mathlib

/-!
CartoPackageManager: tile selection, tile-mask search, custom packages, style cache.

A shallow embedding of `src/all/native/packagemanager/CartoPackageManager.cpp`.

* `std::string` is `String`; positions are counted in characters.
* `std::vector<T>` is `List T`; `push_back` appends at the end.
* A reference parameter that the C++ code mutates (`std::vector<MapTile>& tiles`) is threaded
  through as an explicit value and returned next to the result.
* Classes that the file only uses (MapTile, MapBounds, TileUtils, NetworkUtils, GeneralUtils,
  LicenseManager, PackageTileMask, MemoryAssetPackage, sqlite3pp) are either parameters of the
  embedded functions or small models whose doc comment says where they come from.
-/

namespace carto

/-! ## Tiles -/

/-- A map tile, as built by `MapTile(x, y, zoom, frameNr)` in line 159. -/
structure MapTile where
  x : Nat
  y : Nat
  zoom : Nat
  frameNr : Nat
deriving DecidableEq, Repr

/-- Modelled from the spec: `MapTile::getChild` (class MapTile is not under src/). Spec section 3:
"four children per tile (quadtree), each child computed by a deterministic zoom+1 index-doubling
rule (child index 0..3 maps to one of the 2×2 sub-quadrants)". The low bit of the index selects
the column, the high bit the row. -/
def MapTile.getChild (t : MapTile) (index : Nat) : MapTile :=
  { x := t.x * 2 + index % 2, y := t.y * 2 + index / 2, zoom := t.zoom + 1, frameNr := t.frameNr }

/-- The tile the walk starts from: `MapTile(0, 0, 0, 0)` (line 159). -/
def rootTile : MapTile := { x := 0, y := 0, zoom := 0, frameNr := 0 }

/-- The constant `MAX_CUSTOM_BBOX_PACKAGE_TILES` (line 312). -/
def MAX_CUSTOM_BBOX_PACKAGE_TILES : Nat := 250000

/-- The constant `MAX_CUSTOM_BBOX_PACKAGE_TILE_ZOOM` (line 314). -/
def MAX_CUSTOM_BBOX_PACKAGE_TILE_ZOOM : Nat := 14

/-- The constant `MAX_CUSTOM_BBOX_PACKAGE_TILEMASK_ZOOMLEVEL` (line 316). -/
def MAX_CUSTOM_BBOX_PACKAGE_TILEMASK_ZOOMLEVEL : Nat := 12

/-- The constant `MAX_TILEMASK_LENGTH` (line 318). -/
def MAX_TILEMASK_LENGTH : Nat := 128

/-! ## CalculateBBoxTiles (lines 94-115) -/

/-- The body of `CartoPackageManager::CalculateBBoxTiles`, lines 94-115, with the recursion depth
made explicit so that the recursion is structural. `maxZoom` and `maxCount` stand for the class
constants `MAX_CUSTOM_BBOX_PACKAGE_TILE_ZOOM` and `MAX_CUSTOM_BBOX_PACKAGE_TILES`;
`intersects tile` stands for `bounds.intersects(TileUtils::CalculateMapTileBounds(tile, proj))`
(MapBounds, TileUtils and the projection are not under src/). The result is the returned flag
together with the value of the vector `tiles` on return. The entry point `CalculateBBoxTiles`
always passes a depth of `maxZoom + 1 - tile.zoom`, for which the depth-0 case coincides with
the test `tile.getZoom() > maxZoom` of line 95. -/
def CalculateBBoxTilesDepth (maxZoom maxCount : Nat) (intersects : MapTile → Bool) :
    Nat → MapTile → List MapTile → Bool × List MapTile
  | 0, _, tiles => (true, tiles)
  | depth + 1, tile, tiles =>
    if tile.zoom > maxZoom then (true, tiles)
    else if !intersects tile then (true, tiles)
    else if tiles.length ≥ maxCount then (false, tiles)
    else
      (List.range 4).foldl
        (fun st i =>
          if st.1 then
            CalculateBBoxTilesDepth maxZoom maxCount intersects depth (tile.getChild i) st.2
          else st)
        (true, tiles ++ [tile])

/-- The function `CartoPackageManager::CalculateBBoxTiles` (lines 94-115). -/
def CalculateBBoxTiles (maxZoom maxCount : Nat) (intersects : MapTile → Bool)
    (tile : MapTile) (tiles : List MapTile) : Bool × List MapTile :=
  CalculateBBoxTilesDepth maxZoom maxCount intersects (maxZoom + 1 - tile.zoom) tile tiles

/-! ### Specification side: the quadtree and the tiles that meet the box -/

/-- The tiles met by the walk when there is no count budget: the tile itself when its zoom is at
most `maxZoom` and it intersects the box, followed by the tiles met below its four children. -/
def coveredTiles (maxZoom : Nat) (intersects : MapTile → Bool) : Nat → MapTile → List MapTile
  | 0, _ => []
  | depth + 1, tile =>
    if tile.zoom > maxZoom then []
    else if !intersects tile then []
    else tile :: (List.range 4).flatMap (fun i => coveredTiles maxZoom intersects depth (tile.getChild i))

/-- A tile of the quadtree below the root tile: frame 0 and both indices below `2 ^ zoom`. -/
def MapTile.valid (t : MapTile) : Prop := t.x < 2 ^ t.zoom ∧ t.y < 2 ^ t.zoom ∧ t.frameNr = 0

instance (t : MapTile) : Decidable t.valid := by unfold MapTile.valid; infer_instance

/-- The parent of a tile in the quadtree (the tile whose `getChild` gives it back). -/
def MapTile.parent (t : MapTile) : MapTile :=
  { x := t.x / 2, y := t.y / 2, zoom := t.zoom - 1, frameNr := t.frameNr }

/-- Tile `t` lies in the subtree below `r` (or is `r`). -/
inductive Descends : MapTile → MapTile → Prop
  | self (r : MapTile) : Descends r r
  | child (r t : MapTile) (i : Nat) : i < 4 → Descends (r.getChild i) t → Descends r t

/-- All quadtree tiles of one zoom level. -/
def tilesAtZoom (z : Nat) : List MapTile :=
  (List.range (2 ^ z)).flatMap (fun x => (List.range (2 ^ z)).map (fun y => MapTile.mk x y z 0))

/-- All quadtree tiles of zoom `0..maxZoom`. -/
def tilesUpToZoom (maxZoom : Nat) : List MapTile :=
  (List.range (maxZoom + 1)).flatMap tilesAtZoom

/-- The number of quadtree tiles of zoom `0..maxZoom` that intersect the box. -/
def intersectingCount (maxZoom : Nat) (intersects : MapTile → Bool) : Nat :=
  ((tilesUpToZoom maxZoom).filter intersects).length

/-- The quadtree geometry assumed of the intersection test: a child's bounds lie inside its
parent's bounds, so a box that meets a child meets the parent. -/
def QuadtreeGeometry (intersects : MapTile → Bool) : Prop :=
  ∀ (t : MapTile) (i : Nat), i < 4 → intersects (t.getChild i) = true → intersects t = true

/-- Tile `a` occurs in `l` strictly before an occurrence of `b`. -/
def ListedBefore (l : List MapTile) (a b : MapTile) : Prop :=
  ∃ pre post, l = pre ++ b :: post ∧ a ∈ pre

/-! ## Strings and ResolveSource (lines 290-298) -/

/-- The call `std::string::find(char)`: the position of the first occurrence, `none` for `npos`. -/
def findChar : List Char → Char → Option Nat
  | [], _ => none
  | x :: xs, c => if x = c then some 0 else (findChar xs c).map (fun p => p + 1)

/-- The call `source.find(c)` on a `std::string`. -/
def stdFind (s : String) (c : Char) : Option Nat := findChar s.data c

/-- The call `s.substr(pos, count)`. -/
def substr (s : String) (pos count : Nat) : String := String.mk ((s.data.drop pos).take count)

/-- The call `s.substr(pos)`. -/
def substrFrom (s : String) (pos : Nat) : String := String.mk (s.data.drop pos)

/-- The struct `CartoPackageManager::PackageSource`, built as `PackageSource(type, id)`. -/
structure PackageSource where
  type : String
  id : String
deriving DecidableEq, Repr

/-- The function `CartoPackageManager::ResolveSource` (lines 290-298). -/
def ResolveSource (source : String) : PackageSource :=
  let packageSource : PackageSource := { type := "map", id := source }
  match stdFind source ':' with
  | some pos => { type := substr source 0 pos, id := substrFrom source (pos + 1) }
  | none => packageSource

/-- String `sub` occurs in `s` as a contiguous substring. -/
def containsSubstring (s sub : String) : Prop := sub.data <:+: s.data

/-! ## Collaborators that are not under src/ -/

/-- The object `std::make_shared<PackageTileMask>(tiles, zoom)` of line 167, kept as its
constructor arguments (class PackageTileMask is not under src/). -/
structure PackageTileMask where
  tiles : List MapTile
  zoom : Nat
deriving DecidableEq, Repr

/-- The functions and providers that `CartoPackageManager.cpp` calls and that are not under
src/, taken as parameters. `D` is the type of the parsed coordinates (`double` in the C++ code).

* `lexical_cast s` is `boost::lexical_cast<double>(s)`, `none` when it throws `bad_lexical_cast`;
  the comparisons of line 146 are the order of `D` (the groups of line 133 hold digits, `-`, `.`,
  `e` and `E` only, so no parsed value is a NaN);
* `intersects minLon minLat maxLon maxLat tile` is
  `MapBounds(proj->fromLatLong(minLat, minLon), proj->fromLatLong(maxLat, maxLon))
     .intersects(TileUtils::CalculateMapTileBounds(tile, proj))` with `proj` the EPSG3857 projection;
* `getURLSafeStringValue` is `PackageTileMask::getURLSafeStringValue`;
* `URLEncode`, `BuildURLFromParameters` are the `NetworkUtils` functions; a `std::map` of
  parameters is passed as the list of its key/value pairs in key order;
* `ReplaceTags` is `GeneralUtils::ReplaceTags`;
* `getParameter name` is `LicenseManager::GetInstance().getParameter(name, value, false)`:
  `some value` when it returns true, `none` when it returns false;
* `GetDeviceId`, `GetPlatformId`, `GetSDKVersion` are the `PlatformUtils` functions. -/
structure Services (D : Type) where
  lexical_cast : String → Option D
  intersects : D → D → D → D → MapTile → Bool
  getURLSafeStringValue : PackageTileMask → String
  URLEncode : String → String
  BuildURLFromParameters : String → List (String × String) → String
  ReplaceTags : String → List (String × String) → String → String → Bool → String
  getParameter : String → Option String
  GetDeviceId : String
  GetPlatformId : String
  GetSDKVersion : String

/-! ## createPackageURL (lines 117-130) -/

/-- The function `CartoPackageManager::createPackageURL` (lines 117-130). The empty string is
the "invalid URL" of line 120. -/
def createPackageURL {D : Type} (svc : Services D) (_packageId : String) (_version : Int)
    (baseURL : String) (downloaded : Bool) : String :=
  match svc.getParameter "appToken" with
  | none => ""
  | some appToken =>
    let tagValues : List (String × String) := [("key", appToken)]
    let url := svc.ReplaceTags baseURL tagValues "\x7b" "\x7d" true
    let params : List (String × String) := [("update", if downloaded then "1" else "0")]
    svc.BuildURLFromParameters url params

/-! ## The tile-mask search (lines 164-171) -/

/-- The loop of lines 166-171, started at `zoom`: the value of `tileMask` when the loop is left.
At `zoom = 0` the mask built for zoom 0 is the result whether or not the length test passes. -/
def tileMaskSearch (getURLSafeStringValue : PackageTileMask → String) (maxLength : Nat)
    (tiles : List MapTile) : Nat → PackageTileMask
  | 0 => { tiles := tiles, zoom := 0 }
  | zoom + 1 =>
    let tileMask : PackageTileMask := { tiles := tiles, zoom := zoom + 1 }
    if (getURLSafeStringValue tileMask).length ≤ maxLength then tileMask
    else tileMaskSearch getURLSafeStringValue maxLength tiles zoom

/-! ## getCustomPackage (lines 132-216) -/

/-- The class `\s` of the regular expression of line 133. -/
def isSpaceChar (c : Char) : Bool :=
  c == ' ' || c == Char.ofNat 9 || c == Char.ofNat 10 || c == Char.ofNat 11 ||
    c == Char.ofNat 12 || c == Char.ofNat 13

/-- The class `[0-9-.eE]` of the regular expression of line 133. -/
def isCoordChar (c : Char) : Bool :=
  c.isDigit || c == '-' || c == '.' || c == 'e' || c == 'E'

/-- One `\s*([0-9-.eE]*)\s*` piece of the regular expression: the captured group and the rest
of the input. The three classes (`\s`, the group class, and the separator that follows) are
disjoint, so the greedy reading is the only one. -/
def matchField (cs : List Char) : List Char × List Char :=
  let cs1 := cs.dropWhile isSpaceChar
  (cs1.takeWhile isCoordChar, (cs1.dropWhile isCoordChar).dropWhile isSpaceChar)

/-- The call `std::regex_match(packageId, results, re)` of line 136 with the expression of
line 133: the four captured groups when the whole identifier matches. -/
def matchBBox (packageId : String) : Option (String × String × String × String) :=
  match packageId.data with
  | 'b' :: 'b' :: 'o' :: 'x' :: '(' :: r0 =>
    match (matchField r0).2 with
    | ',' :: r1 =>
      match (matchField r1).2 with
      | ',' :: r2 =>
        match (matchField r2).2 with
        | ',' :: r3 =>
          match (matchField r3).2 with
          | [')'] =>
            some (String.mk (matchField r0).1, String.mk (matchField r1).1,
              String.mk (matchField r2).1, String.mk (matchField r3).1)
          | _ => none
        | _ => none
      | _ => none
    | _ => none
  | _ => none

/-- The enum `PackageType::PackageType`, as far as this file uses it. -/
inductive PackageType where
  | PACKAGE_TYPE_MAP
  | PACKAGE_TYPE_VALHALLA_ROUTING
  | PACKAGE_TYPE_GEOCODING
deriving DecidableEq, Repr

/-- The object built by `std::make_shared<PackageInfo>(...)` in lines 204-212, kept as its seven
constructor arguments. `metaInfo` is the `std::shared_ptr<PackageMetaInfo>`; its content is kept
as text. -/
structure PackageInfo where
  packageId : String
  packageType : PackageType
  version : Int
  size : Nat
  serverURL : String
  tileMask : Option PackageTileMask
  metaInfo : Option String
deriving DecidableEq, Repr

/-- The `std::map` named `params` of lines 193-200, as its key/value pairs in key order. -/
def customPackageParams {D : Type} (svc : Services D) : List (String × String) :=
  (match svc.getParameter "appToken" with
    | some appToken => [("appToken", appToken)]
    | none => []) ++
  [("deviceId", svc.GetDeviceId), ("platform", svc.GetPlatformId), ("sdk_build", svc.GetSDKVersion)]

/-- Lines 173-191: the base URL and package type for a source type, `none` for an illegal type. -/
def customPackageBaseURL {D : Type} (svc : Services D) (packageSource : PackageSource)
    (tileMask : PackageTileMask) : Option (String × PackageType) :=
  if packageSource.type = "map" then
    some ("http://mobile-api.carto.com/maparea/v2/" ++ svc.URLEncode packageSource.id ++ "/1/"
      ++ svc.URLEncode (svc.getURLSafeStringValue tileMask) ++ ".mbtiles",
      PackageType.PACKAGE_TYPE_MAP)
  else if packageSource.type = "routing" then
    some ("http://mobile-api.carto.com/routearea/v2/" ++ svc.URLEncode packageSource.id ++ "/1/"
      ++ svc.URLEncode (svc.getURLSafeStringValue tileMask) ++ ".vtiles",
      PackageType.PACKAGE_TYPE_VALHALLA_ROUTING)
  else if packageSource.type = "geocoding" then
    some ("http://mobile-api.carto.com/geocodearea/v2/" ++ svc.URLEncode packageSource.id ++ "/1/"
      ++ svc.URLEncode (svc.getURLSafeStringValue tileMask) ++ ".nutigeodb",
      PackageType.PACKAGE_TYPE_GEOCODING)
  else none

/-- Lines 157-213 of `getCustomPackage`, entered with the four parsed coordinates of a box that
passed the test of line 146. -/
def customPackageForBounds {D : Type} (svc : Services D) (_source : String) (packageId : String)
    (version : Int) (minLon minLat maxLon maxLat : D) : Option PackageInfo :=
  let packageSource := ResolveSource _source
  let walk := CalculateBBoxTiles MAX_CUSTOM_BBOX_PACKAGE_TILE_ZOOM MAX_CUSTOM_BBOX_PACKAGE_TILES
    (svc.intersects minLon minLat maxLon maxLat) rootTile []
  if !walk.1 then none
  else
    let tileMask := tileMaskSearch svc.getURLSafeStringValue MAX_TILEMASK_LENGTH walk.2
      MAX_CUSTOM_BBOX_PACKAGE_TILEMASK_ZOOMLEVEL
    match customPackageBaseURL svc packageSource tileMask with
    | none => none
    | some (baseURL, packageType) =>
      let url := svc.BuildURLFromParameters baseURL (customPackageParams svc)
      some { packageId := packageId, packageType := packageType, version := version, size := 0,
             serverURL := url, tileMask := some tileMask, metaInfo := none }

/-- The function `CartoPackageManager::getCustomPackage` (lines 132-216). `_source` is the member
of that name; `none` is the empty `std::shared_ptr<PackageInfo>()`. The four `lexical_cast`
calls run in the order of lines 142-145 and the first one that throws ends the call
(lines 152-155). -/
def getCustomPackage {D : Type} [LinearOrder D] (svc : Services D) (_source : String)
    (packageId : String) (version : Int) : Option PackageInfo :=
  match matchBBox packageId with
  | none => none
  | some (g1, g2, g3, g4) =>
    match svc.lexical_cast g1 with
    | none => none
    | some minLon =>
      match svc.lexical_cast g2 with
      | none => none
      | some minLat =>
        match svc.lexical_cast g3 with
        | none => none
        | some maxLon =>
          match svc.lexical_cast g4 with
          | none => none
          | some maxLat =>
            if minLon ≥ maxLon ∨ minLat ≥ maxLat then none
            else customPackageForBounds svc _source packageId version minLon minLat maxLon maxLat

/-! ## The style asset cache (lines 218-288) -/

/-- The content of a `BinaryData` object: its bytes. -/
abbrev BinaryData := List Nat

/-- The class `AssetPackage` seen through `loadAsset`: the asset of a name, `none` for the empty
pointer. -/
abbrev AssetPackage := String → Option BinaryData

/-- A row of the table `files (filename TEXT NOT NULL PRIMARY KEY, contents BLOB NULL)` of
lines 262-266: `contents = none` is the SQL value NULL, `contents = some bytes` a blob. -/
structure FileRow where
  filename : String
  contents : Option BinaryData
deriving DecidableEq, Repr

/-- The table `files` of one style database, as the list of its rows. -/
abbrev StyleDb := List FileRow

/-- The style databases of a package manager: `createStyleDb(styleName)` opens the database file
named after the style (line 258), with an empty table when the file is new (lines 262-266). -/
abbrev StyleStore := String → StyleDb

/-- The statement `DELETE FROM files WHERE filename=:fileName` (lines 241-243). -/
def sqlDelete (db : StyleDb) (fileName : String) : StyleDb :=
  db.filter (fun row => row.filename != fileName)

/-- The value bound by `insCmd.bind(":contents", data->data(), data->size())` (line 247), which
is `sqlite3_bind_blob`: data of length zero is stored as NULL, any other data as a blob of its
bytes. -/
def bindBlob (contents : BinaryData) : Option BinaryData :=
  if contents = [] then none else some contents

/-- The statement `INSERT INTO files (filename, contents) VALUES(:fileName, :contents)`
(lines 245-248). It only runs after the `DELETE` of the same file name, so the primary key
never rejects it. -/
def sqlInsert (db : StyleDb) (fileName : String) (contents : BinaryData) : StyleDb :=
  db ++ [{ filename := fileName, contents := bindBlob contents }]

/-- Lines 281-284: `contents` stays the empty pointer unless `qit->get<const void*>(1)`, which
is `sqlite3_column_blob`, is a non-null pointer; that pointer is null for NULL and for a blob
of length zero. Otherwise the `column_bytes(1)` bytes at the pointer are copied. -/
def columnBlob (contents : Option BinaryData) : Option BinaryData :=
  match contents with
  | none => none
  | some bytes => if bytes = [] then none else some bytes

/-- The assignment `updatedAssets[fileName] = contents` on a `std::map` (line 285), the map
being kept as a list of bindings with one binding per key. -/
def mapAssign (m : List (String × Option BinaryData)) (fileName : String)
    (contents : Option BinaryData) : List (String × Option BinaryData) :=
  (fileName, contents) :: m.filter (fun p => p.1 != fileName)

/-- Modelled from the spec: class `MemoryAssetPackage` (utils/MemoryAssetPackage.h is not under
src/), built as `MemoryAssetPackage(localAssets, baseAssetPackage)`. Spec section 3: "an
ordered/overlay view composed of a base bundled asset set overlaid by the cached updated set". -/
structure MemoryAssetPackage where
  localAssets : List (String × Option BinaryData)
  baseAssetPackage : Option AssetPackage

/-- Modelled from the spec: `MemoryAssetPackage::getLocalAssetNames`, the names bound in the
local set. -/
def MemoryAssetPackage.getLocalAssetNames (p : MemoryAssetPackage) : List String :=
  p.localAssets.map Prod.fst

/-- Modelled from the spec: `MemoryAssetPackage::loadAsset`. Spec section 3: "queries return the
cached version if present (including tombstones, which resolve to "absent"), else fall back to
the base bundle". -/
def MemoryAssetPackage.loadAsset (p : MemoryAssetPackage) (name : String) : Option BinaryData :=
  match p.localAssets.lookup name with
  | some contents => contents
  | none =>
    match p.baseAssetPackage with
    | some base => base name
    | none => none

/-- What `updateStyle` and `getStyleAssetPackage` take from outside the file:

* `CreateStyleAssetPackage` is `CartoVectorTileLayer::CreateStyleAssetPackage()`, the bundled
  base assets;
* `getSchema` is `getSchema()`;
* `update schema styleName current` is `CartoAssetPackageUpdater(schema, styleName)
  .update(current)`: `Except.error` when it throws, otherwise the returned pointer. -/
structure StyleServices where
  CreateStyleAssetPackage : AssetPackage
  getSchema : String
  update : String → String → MemoryAssetPackage → Except String (Option MemoryAssetPackage)

/-- The function `CartoPackageManager::getStyleAssetPackage(const std::string&)`
(lines 270-288), reading the rows of the style database in table order. -/
def getStyleAssetPackage (env : StyleServices) (store : StyleStore) (styleName : String) :
    MemoryAssetPackage :=
  let styleAssetPackage := env.CreateStyleAssetPackage
  let styleDb := store styleName
  let updatedAssets :=
    styleDb.foldl
      (fun updatedAssets row => mapAssign updatedAssets row.filename (columnBlob row.contents)) []
  { localAssets := updatedAssets, baseAssetPackage := some styleAssetPackage }

/-- One pass of the loop body of lines 239-250 for `fileName`. -/
def updateStyleFile (newAssetPackage : MemoryAssetPackage) (styleDb : StyleDb)
    (fileName : String) : StyleDb :=
  let data := newAssetPackage.loadAsset fileName
  let styleDb1 := sqlDelete styleDb fileName
  match data with
  | some contents => sqlInsert styleDb1 fileName contents
  | none => styleDb1

/-- The function `CartoPackageManager::updateStyle` (lines 218-255): the returned flag and the
style databases after the call. The transaction of lines 238-251 always commits here. -/
def updateStyle (env : StyleServices) (_source : String) (store : StyleStore)
    (styleName : String) : Bool × StyleStore :=
  let currentAssetPackage := getStyleAssetPackage env store styleName
  let schema := if env.getSchema.isEmpty then _source ++ "/v1" else env.getSchema
  match env.update schema styleName currentAssetPackage with
  | Except.error _ => (false, store)
  | Except.ok none => (false, store)
  | Except.ok (some newAssetPackage) =>
    let styleDb :=
      newAssetPackage.getLocalAssetNames.foldl (updateStyleFile newAssetPackage) (store styleName)
    (!newAssetPackage.getLocalAssetNames.isEmpty, Function.update store styleName styleDb)

/-- The rows of a style table that carry a given file name. -/
def rowsOf (fileName : String) (db : StyleDb) : StyleDb :=
  db.filter (fun row => row.filename == fileName)

/-! ## A closed instance of the collaborators, for evaluating the functions on examples -/

/-- Modelled from the spec: the tile geometry (`TileUtils::CalculateMapTileBounds` and
`MapBounds::intersects` are not under src/), on a square world `[-w, w] × [-w, w]` with integer
coordinates. Tile `(zoom, x, y)` covers the `x`-th column and `y`-th row of the `2 ^ zoom` grid
over that square; the tile and the box intersect when their closed rectangles share a point. -/
def gridIntersects (w : Int) (minX minY maxX maxY : Int) (t : MapTile) : Bool :=
  decide (2 * w * t.x ≤ (maxX + w) * 2 ^ t.zoom) && decide ((minX + w) * 2 ^ t.zoom ≤ 2 * w * (t.x + 1))
    && decide (2 * w * t.y ≤ (maxY + w) * 2 ^ t.zoom)
    && decide ((minY + w) * 2 ^ t.zoom ≤ 2 * w * (t.y + 1))

/-- Modelled from the spec: the same tile geometry with the other reading of "intersect": the
tile and the box share interior points, so that rectangles that only touch along an edge do not
intersect. -/
def gridOverlaps (w : Int) (minX minY maxX maxY : Int) (t : MapTile) : Bool :=
  decide (2 * w * t.x < (maxX + w) * 2 ^ t.zoom) && decide ((minX + w) * 2 ^ t.zoom < 2 * w * (t.x + 1))
    && decide (2 * w * t.y < (maxY + w) * 2 ^ t.zoom)
    && decide ((minY + w) * 2 ^ t.zoom < 2 * w * (t.y + 1))

/-- The value of a string of decimal digits, `none` when a character is not a digit. -/
def digitsValue : List Char → Nat → Option Nat
  | [], acc => some acc
  | c :: cs, acc => if c.isDigit then digitsValue cs (acc * 10 + (c.toNat - 48)) else none

/-- A `lexical_cast` for whole numbers: an optional minus sign and at least one digit. -/
def castWholeNumber (s : String) : Option Int :=
  match s.data with
  | [] => none
  | '-' :: [] => none
  | '-' :: cs => (digitsValue cs 0).map (fun n => - (n : Int))
  | cs => (digitsValue cs 0).map (fun n => (n : Int))

/-- Modelled from the spec: `NetworkUtils::BuildURLFromParameters` on already encoded text.
Spec section 6: URLs "of the shape <base>?key=...&update=0|1&deviceId=...". -/
def appendParameters (baseURL : String) (params : List (String × String)) : String :=
  match params with
  | [] => baseURL
  | p :: ps =>
    ps.foldl (fun url q => url ++ "&" ++ q.1 ++ "=" ++ q.2) (baseURL ++ "?" ++ p.1 ++ "=" ++ p.2)

/-- Modelled from the spec: `GeneralUtils::ReplaceTags` for the one-character tags of line 125.
Spec section 4.2: "a {key}-style placeholder in the template must be filled with the token". A
placeholder whose name has no value is kept when `keepUnknownTags` is set; an opening brace with
no closing brace is copied as it is. -/
def replaceBraceTags (tagValues : List (String × String)) (keepUnknownTags : Bool) :
    Nat → List Char → List Char
  | 0, cs => cs
  | _ + 1, [] => []
  | fuel + 1, c :: rest =>
    if c = Char.ofNat 123 then
      match rest.dropWhile (fun d => d != Char.ofNat 125) with
      | [] => c :: rest
      | closing :: tail =>
        let tag := rest.takeWhile (fun d => d != Char.ofNat 125)
        (match tagValues.lookup (String.mk tag) with
          | some value => value.data
          | none => if keepUnknownTags then c :: tag ++ [closing] else [])
          ++ replaceBraceTags tagValues keepUnknownTags fuel tail
    else c :: replaceBraceTags tagValues keepUnknownTags fuel rest

/-- A closed set of collaborators over whole-number coordinates on the square world of half
width `2 ^ 20`, with the given license token. The mask text is one character per zoom level. -/
def sampleServices (appToken : Option String) : Services Int where
  lexical_cast := castWholeNumber
  intersects := fun minLon minLat maxLon maxLat => gridIntersects (2 ^ 20) minLon minLat maxLon maxLat
  getURLSafeStringValue := fun mask => String.mk (List.replicate (mask.zoom + 1) 'A')
  URLEncode := fun s => s
  BuildURLFromParameters := appendParameters
  ReplaceTags := fun base tagValues _ _ keepUnknownTags =>
    String.mk (replaceBraceTags tagValues keepUnknownTags base.length base.data)
  getParameter := fun name => if name = "appToken" then appToken else none
  GetDeviceId := "device"
  GetPlatformId := "linux"
  GetSDKVersion := "1"

/-- The bundled base package of the example: it holds `b.json` only. -/
def sampleBaseAssets : AssetPackage :=
  fun name => if name = "b.json" then some [7] else none

/-- The style collaborators of the example: the updater returns a package that gives `a.json`
the bytes 1, 2 and marks `b.json` as deleted. -/
def sampleStyleServices : StyleServices where
  CreateStyleAssetPackage := sampleBaseAssets
  getSchema := ""
  update := fun _ _ _ =>
    Except.ok (some { localAssets := [("a.json", some [1, 2]), ("b.json", none)],
                      baseAssetPackage := none })

/-- The style collaborators of the second example: the updater returns a package that gives
`a.json` content of length zero (an empty file). -/
def emptyFileStyleServices : StyleServices where
  CreateStyleAssetPackage := sampleBaseAssets
  getSchema := ""
  update := fun _ _ _ =>
    Except.ok (some { localAssets := [("a.json", some [])], baseAssetPackage := none })

/-- The prior state of the example: the database of style `voyager` holds `b.json` with old
bytes. -/
def sampleStyleStore : StyleStore :=
  fun styleName =>
    if styleName = "voyager" then [{ filename := "b.json", contents := some [5, 5] }] else []

/-! ### The walk against the budget-free enumeration -/

/-- The equation the C++ text of lines 94-115 reads as. -/
theorem CalculateBBoxTiles_eq (maxZoom maxCount : Nat) (intersects : MapTile → Bool)
    (tile : MapTile) (tiles : List MapTile) :
    CalculateBBoxTiles maxZoom maxCount intersects tile tiles =
      if tile.zoom > maxZoom then (true, tiles)
      else if !intersects tile then (true, tiles)
      else if tiles.length ≥ maxCount then (false, tiles)
      else
        (List.range 4).foldl
          (fun st i =>
            if st.1 then CalculateBBoxTiles maxZoom maxCount intersects (tile.getChild i) st.2
            else st)
          (true, tiles ++ [tile]) := by
  unfold CalculateBBoxTiles
  by_cases hz : tile.zoom > maxZoom
  · have h0 : maxZoom + 1 - tile.zoom = 0 := by omega
    rw [h0]
    simp [CalculateBBoxTilesDepth, hz]
  · have h1 : maxZoom + 1 - tile.zoom = (maxZoom - tile.zoom) + 1 := by omega
    have h2 : ∀ i, maxZoom + 1 - (tile.getChild i).zoom = maxZoom - tile.zoom := by
      intro i
      simp only [MapTile.getChild]
      omega
    rw [h1]
    simp only [CalculateBBoxTilesDepth, h2]

theorem foldl_failed_stays {α : Type} (f : α → List MapTile → Bool × List MapTile)
    (cs : List α) (l : List MapTile) :
    cs.foldl (fun st c => if st.1 then f c st.2 else st) (false, l) = (false, l) := by
  induction cs with
  | nil => rfl
  | cons c cs ih => simpa using ih

/-- One pass of the loop of lines 108-113 over a list of children, given what each recursive
call does. -/
theorem foldl_children_spec {α : Type} (maxCount : Nat)
    (f : α → List MapTile → Bool × List MapTile) (e : α → List MapTile)
    (hf : ∀ c tiles, tiles.length ≤ maxCount →
      ((f c tiles).1 = true ↔ tiles.length + (e c).length ≤ maxCount) ∧
      ((f c tiles).1 = true → (f c tiles).2 = tiles ++ e c)) :
    ∀ (cs : List α) (tiles : List MapTile), tiles.length ≤ maxCount →
      ((cs.foldl (fun st c => if st.1 then f c st.2 else st) (true, tiles)).1 = true ↔
          tiles.length + (cs.flatMap e).length ≤ maxCount) ∧
      ((cs.foldl (fun st c => if st.1 then f c st.2 else st) (true, tiles)).1 = true →
          (cs.foldl (fun st c => if st.1 then f c st.2 else st) (true, tiles)).2
            = tiles ++ cs.flatMap e) := by
  intro cs
  induction cs with
  | nil => intro tiles h; simp [h]
  | cons c cs ih =>
    intro tiles h
    obtain ⟨h1, h2⟩ := hf c tiles h
    simp only [List.foldl_cons, if_true, List.flatMap_cons, List.length_append]
    cases hr : f c tiles with
    | mk b l =>
      rw [hr] at h1 h2
      cases b with
      | false =>
        rw [foldl_failed_stays]
        simp only [Bool.false_eq_true, false_iff, not_le, false_implies, and_true] at h1 ⊢
        omega
      | true =>
        have hl : l = tiles ++ e c := h2 rfl
        have hlen : l.length ≤ maxCount := by
          rw [hl, List.length_append]; exact h1.mp rfl
        obtain ⟨i1, i2⟩ := ih l hlen
        constructor
        · rw [i1, hl, List.length_append]; omega
        · intro hs
          rw [i2 hs, hl, List.append_assoc]

/-- The walk succeeds exactly when the tiles already held plus the tiles it would add fit the
budget, and then it has appended exactly those tiles. -/
theorem CalculateBBoxTilesDepth_spec (maxZoom maxCount : Nat) (intersects : MapTile → Bool) :
    ∀ (depth : Nat) (tile : MapTile) (tiles : List MapTile), tiles.length ≤ maxCount →
      ((CalculateBBoxTilesDepth maxZoom maxCount intersects depth tile tiles).1 = true ↔
        tiles.length + (coveredTiles maxZoom intersects depth tile).length ≤ maxCount) ∧
      ((CalculateBBoxTilesDepth maxZoom maxCount intersects depth tile tiles).1 = true →
        (CalculateBBoxTilesDepth maxZoom maxCount intersects depth tile tiles).2
          = tiles ++ coveredTiles maxZoom intersects depth tile) := by
  intro depth
  induction depth with
  | zero => intro tile tiles h; simp [CalculateBBoxTilesDepth, coveredTiles, h]
  | succ d ih =>
    intro tile tiles h
    simp only [CalculateBBoxTilesDepth, coveredTiles]
    by_cases hz : tile.zoom > maxZoom
    · simp [hz, h]
    · by_cases hi : intersects tile = true
      · by_cases hc : tiles.length ≥ maxCount
        · simp only [hz, hi, hc, if_true, if_false, Bool.not_true, Bool.false_eq_true,
            List.length_cons, false_iff, false_implies, and_true, not_le]
          omega
        · have hlen : (tiles ++ [tile]).length ≤ maxCount := by
            simp only [List.length_append, List.length_singleton]; omega
          obtain ⟨f1, f2⟩ := foldl_children_spec maxCount
            (fun i l => CalculateBBoxTilesDepth maxZoom maxCount intersects d (tile.getChild i) l)
            (fun i => coveredTiles maxZoom intersects d (tile.getChild i))
            (fun c l hl => ih (tile.getChild c) l hl) (List.range 4) (tiles ++ [tile]) hlen
          simp only [hz, hi, hc, if_false, Bool.not_true, Bool.false_eq_true, List.length_cons]
          constructor
          · rw [f1]
            simp only [List.length_append, List.length_singleton]
            omega
          · intro hs
            rw [f2 hs]
            simp
      · simp [hz, hi, h]

/-! ### The quadtree -/

theorem getChild_parent (t : MapTile) (i : Nat) (hi : i < 4) : (t.getChild i).parent = t := by
  cases t with
  | mk x y z f =>
    simp only [MapTile.getChild, MapTile.parent, MapTile.mk.injEq]
    refine ⟨by omega, by omega, by omega, trivial⟩

theorem Descends.zoom_le {r t : MapTile} (h : Descends r t) : r.zoom ≤ t.zoom := by
  induction h with
  | self r => exact le_refl _
  | child r t i _ _ ih =>
    simp only [MapTile.getChild] at ih
    omega

/-- A descendant determines its ancestor at every zoom level above it. -/
theorem Descends.ancestor {r t : MapTile} (h : Descends r t) :
    t.x / 2 ^ (t.zoom - r.zoom) = r.x ∧ t.y / 2 ^ (t.zoom - r.zoom) = r.y ∧
      t.frameNr = r.frameNr := by
  induction h with
  | self r => simp
  | child r t i hi hd ih =>
    have hz := hd.zoom_le
    simp only [MapTile.getChild] at ih hz
    have hk : t.zoom - r.zoom = (t.zoom - (r.zoom + 1)) + 1 := by omega
    obtain ⟨hx, hy, hf⟩ := ih
    rw [hk, pow_succ, ← Nat.div_div_eq_div_mul, ← Nat.div_div_eq_div_mul, hx, hy]
    refine ⟨by omega, by omega, hf⟩

theorem Descends.getChild {r p : MapTile} (h : Descends r p) (i : Nat) (hi : i < 4) :
    Descends r (p.getChild i) := by
  induction h with
  | self r => exact Descends.child r _ i hi (Descends.self _)
  | child r t j hj _ ih => exact Descends.child r _ j hj ih

theorem Descends.valid {t : MapTile} (h : Descends rootTile t) : t.valid := by
  obtain ⟨hx, hy, hf⟩ := h.ancestor
  simp only [rootTile, Nat.sub_zero] at hx hy hf
  have hpos : 0 < 2 ^ t.zoom := Nat.pow_pos (by decide)
  exact ⟨(Nat.div_eq_zero_iff hpos).mp hx, (Nat.div_eq_zero_iff hpos).mp hy, hf⟩

theorem parent_getChild (t : MapTile) (hz : 0 < t.zoom) :
    t.parent.getChild (t.x % 2 + 2 * (t.y % 2)) = t := by
  cases t with
  | mk x y z f =>
    simp only [MapTile.getChild, MapTile.parent, MapTile.mk.injEq]
    simp only at hz
    refine ⟨by omega, by omega, by omega, trivial⟩

theorem descends_of_valid : ∀ (z : Nat) (t : MapTile), t.zoom = z → t.valid → Descends rootTile t := by
  intro z
  induction z with
  | zero =>
    intro t hz hv
    obtain ⟨hx, hy, hf⟩ := hv
    rw [hz] at hx hy
    have : t = rootTile := by
      cases t with
      | mk x y z f =>
        simp only [rootTile, MapTile.mk.injEq]
        simp only at hx hy hz hf
        exact ⟨by omega, by omega, hz, hf⟩
    rw [this]
    exact Descends.self _
  | succ n ih =>
    intro t hz hv
    obtain ⟨hx, hy, hf⟩ := hv
    rw [hz, pow_succ] at hx hy
    have hp : Descends rootTile t.parent := by
      apply ih
      · simp only [MapTile.parent]; omega
      · refine ⟨?_, ?_, hf⟩
        · simp only [MapTile.parent, hz, Nat.add_sub_cancel]; omega
        · simp only [MapTile.parent, hz, Nat.add_sub_cancel]; omega
    have hc := hp.getChild (t.x % 2 + 2 * (t.y % 2)) (by omega)
    rwa [parent_getChild t (by omega)] at hc

theorem descends_root_iff (t : MapTile) : Descends rootTile t ↔ t.valid :=
  ⟨Descends.valid, descends_of_valid t.zoom t rfl⟩

theorem intersects_of_descends {intersects : MapTile → Bool} (hgeo : QuadtreeGeometry intersects)
    {r t : MapTile} (h : Descends r t) (ht : intersects t = true) : intersects r = true := by
  induction h with
  | self r => exact ht
  | child r t i hi _ ih => exact hgeo r i hi (ih ht)

theorem Descends.cases_iff (r t : MapTile) :
    Descends r t ↔ t = r ∨ ∃ i, i < 4 ∧ Descends (r.getChild i) t := by
  constructor
  · intro h
    cases h with
    | self => exact Or.inl rfl
    | child _ _ i hi hd => exact Or.inr ⟨i, hi, hd⟩
  · rintro (h | ⟨i, hi, hd⟩)
    · rw [h]; exact Descends.self _
    · exact Descends.child r t i hi hd

/-! ### What the budget-free enumeration lists -/

theorem coveredTiles_sound (maxZoom : Nat) (intersects : MapTile → Bool) :
    ∀ (depth : Nat) (r t : MapTile), t ∈ coveredTiles maxZoom intersects depth r →
      Descends r t ∧ t.zoom ≤ maxZoom ∧ intersects t = true := by
  intro depth
  induction depth with
  | zero => intro r t h; simp [coveredTiles] at h
  | succ d ih =>
    intro r t h
    simp only [coveredTiles] at h
    by_cases hz : r.zoom > maxZoom
    · simp [hz] at h
    · by_cases hi : intersects r = true
      · simp only [hz, hi, if_false, Bool.not_true, Bool.false_eq_true, List.mem_cons,
          List.mem_flatMap, List.mem_range] at h
        rcases h with h | ⟨i, hi4, hm⟩
        · subst h
          exact ⟨Descends.self _, by omega, hi⟩
        · obtain ⟨h1, h2, h3⟩ := ih _ _ hm
          exact ⟨Descends.child r t i hi4 h1, h2, h3⟩
      · simp [hz, hi] at h

theorem mem_coveredTiles (maxZoom : Nat) (intersects : MapTile → Bool)
    (hgeo : QuadtreeGeometry intersects) :
    ∀ (depth : Nat) (r t : MapTile), maxZoom + 1 - r.zoom ≤ depth →
      (t ∈ coveredTiles maxZoom intersects depth r ↔
        Descends r t ∧ t.zoom ≤ maxZoom ∧ intersects t = true) := by
  intro depth
  induction depth with
  | zero =>
    intro r t hd
    simp only [coveredTiles, List.not_mem_nil, false_iff, not_and]
    intro h hz
    have := h.zoom_le
    omega
  | succ d ih =>
    intro r t hd
    constructor
    · exact coveredTiles_sound maxZoom intersects (d + 1) r t
    · rintro ⟨h1, h2, h3⟩
      have hz : ¬ r.zoom > maxZoom := by
        have := h1.zoom_le
        omega
      have hi : intersects r = true := intersects_of_descends hgeo h1 h3
      simp only [coveredTiles, hz, hi, if_false, Bool.not_true, Bool.false_eq_true,
        List.mem_cons, List.mem_flatMap, List.mem_range]
      rcases (Descends.cases_iff r t).mp h1 with h | ⟨i, hi4, hdesc⟩
      · exact Or.inl h
      · refine Or.inr ⟨i, hi4, ?_⟩
        apply (ih (r.getChild i) t ?_).mpr ⟨hdesc, h2, h3⟩
        simp only [MapTile.getChild]
        omega

theorem nodup_coveredTiles (maxZoom : Nat) (intersects : MapTile → Bool) :
    ∀ (depth : Nat) (r : MapTile), (coveredTiles maxZoom intersects depth r).Nodup := by
  intro depth
  induction depth with
  | zero => intro r; simp [coveredTiles]
  | succ d ih =>
    intro r
    simp only [coveredTiles]
    by_cases hz : r.zoom > maxZoom
    · simp [hz]
    · by_cases hi : intersects r = true
      · simp only [hz, hi, if_false, Bool.not_true, Bool.false_eq_true, List.nodup_cons,
          List.mem_flatMap, List.mem_range, not_exists, not_and]
        constructor
        · intro i _ hm
          have := (coveredTiles_sound maxZoom intersects d _ _ hm).1.zoom_le
          simp only [MapTile.getChild] at this
          omega
        · rw [List.nodup_flatMap]
          refine ⟨fun i _ => ih _, ?_⟩
          apply List.Nodup.pairwise_of_forall_ne (List.nodup_range 4)
          intro i hi4 j hj4 hne t hti htj
          apply hne
          rw [List.mem_range] at hi4 hj4
          have di := (coveredTiles_sound maxZoom intersects d _ _ hti).1
          have dj := (coveredTiles_sound maxZoom intersects d _ _ htj).1
          obtain ⟨xi, yi, _⟩ := di.ancestor
          obtain ⟨xj, yj, _⟩ := dj.ancestor
          simp only [MapTile.getChild] at xi yi xj yj
          omega
      · simp [hz, hi]

theorem coveredTiles_head (maxZoom : Nat) (intersects : MapTile → Bool) (depth : Nat)
    (r : MapTile) (h : r ∈ coveredTiles maxZoom intersects depth r) :
    ∃ rest, coveredTiles maxZoom intersects depth r = r :: rest := by
  cases depth with
  | zero => simp [coveredTiles] at h
  | succ d =>
    simp only [coveredTiles] at h ⊢
    by_cases hz : r.zoom > maxZoom
    · simp [hz] at h
    · by_cases hi : intersects r = true
      · simp only [hz, hi, if_false, Bool.not_true, Bool.false_eq_true]
        exact ⟨_, rfl⟩
      · simp [hz, hi] at h

/-- In the enumeration below `r`, every tile other than `r` comes after its parent. -/
theorem coveredTiles_parent_first (maxZoom : Nat) (intersects : MapTile → Bool) :
    ∀ (depth : Nat) (r t : MapTile), t ∈ coveredTiles maxZoom intersects depth r → t ≠ r →
      ListedBefore (coveredTiles maxZoom intersects depth r) t.parent t := by
  intro depth
  induction depth with
  | zero => intro r t h; simp [coveredTiles] at h
  | succ d ih =>
    intro r t h hne
    simp only [coveredTiles] at h ⊢
    by_cases hz : r.zoom > maxZoom
    · simp [hz] at h
    · by_cases hi : intersects r = true
      · simp only [hz, hi, if_false, Bool.not_true, Bool.false_eq_true, List.mem_cons,
          List.mem_flatMap] at h ⊢
        rcases h with h | ⟨i, hi4, hm⟩
        · exact absurd h hne
        · obtain ⟨s, u, hsu⟩ := List.append_of_mem hi4
          rw [hsu, List.flatMap_append, List.flatMap_cons]
          rw [List.mem_range] at hi4
          by_cases hc : t = r.getChild i
          · subst hc
            obtain ⟨rest, hrest⟩ := coveredTiles_head maxZoom intersects d _ hm
            rw [hrest, getChild_parent r i hi4]
            refine ⟨r :: s.flatMap (fun k => coveredTiles maxZoom intersects d (r.getChild k)),
              rest ++ u.flatMap (fun k => coveredTiles maxZoom intersects d (r.getChild k)), ?_,
              List.mem_cons_self _ _⟩
            simp
          · obtain ⟨pre, post, hpp, hpar⟩ := ih _ _ hm hc
            rw [hpp]
            refine ⟨r :: (s.flatMap (fun k => coveredTiles maxZoom intersects d (r.getChild k))
              ++ pre), post ++ u.flatMap (fun k => coveredTiles maxZoom intersects d (r.getChild k)),
              ?_, ?_⟩
            · simp
            · exact List.mem_cons_of_mem _ (List.mem_append_right _ hpar)
      · simp [hz, hi] at h

/-! ### The list of all quadtree tiles -/

theorem mem_tilesAtZoom (z : Nat) (t : MapTile) : t ∈ tilesAtZoom z ↔ t.valid ∧ t.zoom = z := by
  simp only [tilesAtZoom, List.mem_flatMap, List.mem_range, List.mem_map, MapTile.valid]
  constructor
  · rintro ⟨x, hx, y, hy, rfl⟩
    exact ⟨⟨hx, hy, rfl⟩, rfl⟩
  · rintro ⟨⟨hx, hy, hf⟩, hz⟩
    subst hz
    refine ⟨t.x, hx, t.y, hy, ?_⟩
    cases t with
    | mk x y z f =>
      simp only at hf
      simp [hf]

theorem nodup_tilesAtZoom (z : Nat) : (tilesAtZoom z).Nodup := by
  simp only [tilesAtZoom]
  rw [List.nodup_flatMap]
  constructor
  · intro x _
    apply List.Nodup.map _ (List.nodup_range _)
    intro a b h
    simpa using h
  · apply List.Nodup.pairwise_of_forall_ne (List.nodup_range _)
    intro a _ b _ hne t hta htb
    simp only [List.mem_map] at hta htb
    obtain ⟨_, _, rfl⟩ := hta
    obtain ⟨_, _, h⟩ := htb
    simp only [MapTile.mk.injEq] at h
    exact hne h.1.symm

theorem mem_tilesUpToZoom (m : Nat) (t : MapTile) :
    t ∈ tilesUpToZoom m ↔ t.valid ∧ t.zoom ≤ m := by
  simp only [tilesUpToZoom, List.mem_flatMap, List.mem_range, mem_tilesAtZoom]
  constructor
  · rintro ⟨z, hz, hv, rfl⟩
    exact ⟨hv, by omega⟩
  · rintro ⟨hv, hz⟩
    exact ⟨t.zoom, by omega, hv, rfl⟩

theorem nodup_tilesUpToZoom (m : Nat) : (tilesUpToZoom m).Nodup := by
  simp only [tilesUpToZoom]
  rw [List.nodup_flatMap]
  refine ⟨fun z _ => nodup_tilesAtZoom z, ?_⟩
  apply List.Nodup.pairwise_of_forall_ne (List.nodup_range _)
  intro a _ b _ hne t hta htb
  rw [mem_tilesAtZoom] at hta htb
  exact hne (hta.2.symm.trans htb.2)

/-- Under the quadtree geometry the enumeration from the root lists each intersecting quadtree
tile of zoom `0..maxZoom` once, so its length is the number of such tiles. -/
theorem length_coveredTiles_root (maxZoom : Nat) (intersects : MapTile → Bool)
    (hgeo : QuadtreeGeometry intersects) :
    (coveredTiles maxZoom intersects (maxZoom + 1) rootTile).length
      = intersectingCount maxZoom intersects := by
  unfold intersectingCount
  apply List.Perm.length_eq
  rw [List.perm_ext_iff_of_nodup (nodup_coveredTiles _ _ _ _)
    ((nodup_tilesUpToZoom maxZoom).filter _)]
  intro t
  rw [mem_coveredTiles maxZoom intersects hgeo (maxZoom + 1) rootTile t (by simp [rootTile]),
    List.mem_filter, mem_tilesUpToZoom, descends_root_iff]
  tauto

/-! ### The sample geometry is a quadtree geometry -/

theorem gridIntersects_geometry (w : Int) (hw : 0 ≤ w) (minX minY maxX maxY : Int) :
    QuadtreeGeometry (gridIntersects w minX minY maxX maxY) := by
  intro t i _ h
  simp only [gridIntersects, MapTile.getChild, Bool.and_eq_true, decide_eq_true_eq,
    Nat.cast_add, Nat.cast_mul, Nat.cast_ofNat, pow_succ] at h ⊢
  obtain ⟨⟨⟨h1, h2⟩, h3⟩, h4⟩ := h
  have hx : (0 : Int) ≤ ((i % 2 : Nat) : Int) := Int.natCast_nonneg _
  have hx1 : ((i % 2 : Nat) : Int) ≤ 1 := by
    have : i % 2 < 2 := Nat.mod_lt _ (by decide)
    omega
  have hy : (0 : Int) ≤ ((i / 2 : Nat) : Int) := Int.natCast_nonneg _
  have hy1 : ((i / 2 : Nat) : Int) ≤ 1 := by omega
  refine ⟨⟨⟨?_, ?_⟩, ?_⟩, ?_⟩
  · nlinarith [mul_nonneg hw hx]
  · nlinarith [mul_nonneg hw (sub_nonneg.mpr hx1)]
  · nlinarith [mul_nonneg hw hy]
  · nlinarith [mul_nonneg hw (sub_nonneg.mpr hy1)]

/-! ### Claims about CalculateBBoxTiles -/

theorem CalculateBBoxTiles_root (maxZoom maxCount : Nat) (intersects : MapTile → Bool) :
    ((CalculateBBoxTiles maxZoom maxCount intersects rootTile []).1 = true ↔
        (coveredTiles maxZoom intersects (maxZoom + 1) rootTile).length ≤ maxCount) ∧
    ((CalculateBBoxTiles maxZoom maxCount intersects rootTile []).1 = true →
        (CalculateBBoxTiles maxZoom maxCount intersects rootTile []).2
          = coveredTiles maxZoom intersects (maxZoom + 1) rootTile) := by
  have h := CalculateBBoxTilesDepth_spec maxZoom maxCount intersects (maxZoom + 1) rootTile []
    (Nat.zero_le _)
  simpa [CalculateBBoxTiles, rootTile] using h

/-- Claim C1. When `CalculateBBoxTiles`, started at the root tile with an empty list, returns
true, the list holds exactly the quadtree tiles of zoom `0..maxZoom` that intersect the box
(every listed tile is such a tile and every such tile is listed), holds no tile twice, and
holds every tile of zoom above 0 after its parent; the intersection test is assumed to follow
the quadtree geometry (a box that meets a child tile meets its parent). -/
theorem CalculateBBoxTiles_exact_cover (maxZoom maxCount : Nat) (intersects : MapTile → Bool)
    (hgeo : QuadtreeGeometry intersects) (tiles : List MapTile)
    (h : CalculateBBoxTiles maxZoom maxCount intersects rootTile [] = (true, tiles)) :
    (∀ t, t ∈ tiles ↔ (t.valid ∧ t.zoom ≤ maxZoom ∧ intersects t = true)) ∧
    tiles.Nodup ∧
    (∀ t, t ∈ tiles → 0 < t.zoom → ListedBefore tiles t.parent t) := by
  have hr := (CalculateBBoxTiles_root maxZoom maxCount intersects).2
  rw [h] at hr
  have ht : tiles = coveredTiles maxZoom intersects (maxZoom + 1) rootTile := hr rfl
  subst ht
  refine ⟨?_, nodup_coveredTiles _ _ _ _, ?_⟩
  · intro t
    rw [mem_coveredTiles maxZoom intersects hgeo (maxZoom + 1) rootTile t (by simp [rootTile]),
      descends_root_iff]
  · intro t hm hz
    apply coveredTiles_parent_first maxZoom intersects (maxZoom + 1) rootTile t hm
    intro hroot
    rw [hroot] at hz
    exact absurd hz (by decide)

/-- Witness for C1: the walk with `maxZoom = 2` over the box `[-1, 1] × [-1, 1]` at the centre
of the world of half width 180, which meets the root, the four zoom-1 tiles and the four
central zoom-2 tiles. -/
theorem CalculateBBoxTiles_exact_cover_witness :
    QuadtreeGeometry (gridIntersects 180 (-1) (-1) 1 1) ∧
    CalculateBBoxTiles 2 250000 (gridIntersects 180 (-1) (-1) 1 1) rootTile []
      = (true, [⟨0, 0, 0, 0⟩, ⟨0, 0, 1, 0⟩, ⟨1, 1, 2, 0⟩, ⟨1, 0, 1, 0⟩, ⟨2, 1, 2, 0⟩,
          ⟨0, 1, 1, 0⟩, ⟨1, 2, 2, 0⟩, ⟨1, 1, 1, 0⟩, ⟨2, 2, 2, 0⟩]) ∧
    ((∀ t, t ∈ [(⟨0, 0, 0, 0⟩ : MapTile), ⟨0, 0, 1, 0⟩, ⟨1, 1, 2, 0⟩, ⟨1, 0, 1, 0⟩, ⟨2, 1, 2, 0⟩,
          ⟨0, 1, 1, 0⟩, ⟨1, 2, 2, 0⟩, ⟨1, 1, 1, 0⟩, ⟨2, 2, 2, 0⟩] ↔
        (t.valid ∧ t.zoom ≤ 2 ∧ gridIntersects 180 (-1) (-1) 1 1 t = true)) ∧
      [(⟨0, 0, 0, 0⟩ : MapTile), ⟨0, 0, 1, 0⟩, ⟨1, 1, 2, 0⟩, ⟨1, 0, 1, 0⟩, ⟨2, 1, 2, 0⟩,
          ⟨0, 1, 1, 0⟩, ⟨1, 2, 2, 0⟩, ⟨1, 1, 1, 0⟩, ⟨2, 2, 2, 0⟩].Nodup ∧
      (∀ t, t ∈ [(⟨0, 0, 0, 0⟩ : MapTile), ⟨0, 0, 1, 0⟩, ⟨1, 1, 2, 0⟩, ⟨1, 0, 1, 0⟩, ⟨2, 1, 2, 0⟩,
          ⟨0, 1, 1, 0⟩, ⟨1, 2, 2, 0⟩, ⟨1, 1, 1, 0⟩, ⟨2, 2, 2, 0⟩] → 0 < t.zoom →
        ListedBefore [(⟨0, 0, 0, 0⟩ : MapTile), ⟨0, 0, 1, 0⟩, ⟨1, 1, 2, 0⟩, ⟨1, 0, 1, 0⟩,
          ⟨2, 1, 2, 0⟩, ⟨0, 1, 1, 0⟩, ⟨1, 2, 2, 0⟩, ⟨1, 1, 1, 0⟩, ⟨2, 2, 2, 0⟩] t.parent t)) :=
  ⟨gridIntersects_geometry 180 (by decide) _ _ _ _, by decide,
    CalculateBBoxTiles_exact_cover 2 250000 (gridIntersects 180 (-1) (-1) 1 1)
      (gridIntersects_geometry 180 (by decide) _ _ _ _) _ (by decide)⟩

/-- Claim C2. Under the quadtree geometry, `CalculateBBoxTiles` started at the root tile with an
empty list returns false exactly when more than `maxCount` quadtree tiles of zoom `0..maxZoom`
intersect the box; and with `maxCount = 0` it returns false for every box that intersects the
root tile. -/
theorem CalculateBBoxTiles_fails_iff_over_budget (maxZoom maxCount : Nat)
    (intersects : MapTile → Bool) (hgeo : QuadtreeGeometry intersects) :
    ((CalculateBBoxTiles maxZoom maxCount intersects rootTile []).1 = false ↔
        maxCount < intersectingCount maxZoom intersects) ∧
    (intersects rootTile = true →
        (CalculateBBoxTiles maxZoom 0 intersects rootTile []).1 = false) := by
  constructor
  · have h := (CalculateBBoxTiles_root maxZoom maxCount intersects).1
    rw [length_coveredTiles_root maxZoom intersects hgeo] at h
    rw [← not_le, ← h]
    simp
  · intro hroot
    have hz : ¬ maxZoom < rootTile.zoom := by simp [rootTile]
    rw [CalculateBBoxTiles_eq]
    simp [hroot, hz]

/-- Witness for C2: with `maxZoom = 2` nine tiles meet the box `[-1, 1] × [-1, 1]`, so a budget
of 3 tiles fails. -/
theorem CalculateBBoxTiles_fails_iff_over_budget_witness :
    QuadtreeGeometry (gridIntersects 180 (-1) (-1) 1 1) ∧
    (CalculateBBoxTiles 2 3 (gridIntersects 180 (-1) (-1) 1 1) rootTile []).1 = false ∧
    3 < intersectingCount 2 (gridIntersects 180 (-1) (-1) 1 1) :=
  ⟨gridIntersects_geometry 180 (by decide) _ _ _ _, by decide,
    (CalculateBBoxTiles_fails_iff_over_budget 2 3 (gridIntersects 180 (-1) (-1) 1 1)
      (gridIntersects_geometry 180 (by decide) _ _ _ _)).1.mp (by decide)⟩


/-! ### ResolveSource -/

theorem findChar_eq_none (c : Char) : ∀ cs : List Char, c ∉ cs → findChar cs c = none := by
  intro cs
  induction cs with
  | nil => intro _; rfl
  | cons x xs ih =>
    intro h
    have hx : ¬ x = c := fun e => h (e ▸ List.mem_cons_self _ _)
    have hxs : c ∉ xs := fun m => h (List.mem_cons_of_mem _ m)
    simp [findChar, hx, ih hxs]

theorem findChar_first (c : Char) :
    ∀ (pre post : List Char), c ∉ pre → findChar (pre ++ c :: post) c = some pre.length := by
  intro pre
  induction pre with
  | nil => intro post _; simp [findChar]
  | cons x xs ih =>
    intro post h
    have hx : ¬ x = c := fun e => h (e ▸ List.mem_cons_self _ _)
    have hxs : c ∉ xs := fun m => h (List.mem_cons_of_mem _ m)
    simp [findChar, hx, ih post hxs]

theorem exists_first_occurrence (c : Char) :
    ∀ cs : List Char, c ∈ cs → ∃ pre post, cs = pre ++ c :: post ∧ c ∉ pre := by
  intro cs
  induction cs with
  | nil => intro h; simp at h
  | cons x xs ih =>
    intro h
    by_cases hx : x = c
    · exact ⟨[], xs, by simp [hx], by simp⟩
    · have hxs : c ∈ xs := by
        rcases List.mem_cons.mp h with e | m
        · exact absurd e.symm hx
        · exact m
      obtain ⟨pre, post, he, hn⟩ := ih hxs
      refine ⟨x :: pre, post, by simp [he], ?_⟩
      intro hm
      rcases List.mem_cons.mp hm with e | m
      · exact hx e.symm
      · exact hn m

theorem ResolveSource_split (kind id : String) (h : ':' ∉ kind.data) :
    ResolveSource (kind ++ ":" ++ id) = { type := kind, id := id } := by
  have hd : (kind ++ ":" ++ id).data = kind.data ++ ':' :: id.data := by
    simp [String.data_append]
  have hf : stdFind (kind ++ ":" ++ id) ':' = some kind.data.length := by
    unfold stdFind
    rw [hd]
    exact findChar_first ':' _ _ h
  simp only [ResolveSource, hf, substr, substrFrom, hd, List.drop_zero]
  congr 1
  · simp
  · have : List.drop (kind.data.length + 1) (kind.data ++ ':' :: id.data) = id.data := by
      rw [List.drop_append_eq_append_drop]
      simp
    rw [this]

/-- Claim C6. `ResolveSource` is a total function and: for a source that is `kind`, a colon and
`id`, where `kind` holds no colon, it returns that `kind` and that `id` (the text before the
first colon and all the text after it); for every source that holds a colon the returned parts
give the source back as type, colon, id and the type holds no colon; for a source without a
colon it returns the type `map` and the whole source as id. -/
theorem ResolveSource_spec (source : String) :
    (∀ kind id : String, source = kind ++ ":" ++ id → ':' ∉ kind.data →
        ResolveSource source = { type := kind, id := id }) ∧
    (':' ∈ source.data →
        (ResolveSource source).type ++ ":" ++ (ResolveSource source).id = source ∧
        ':' ∉ (ResolveSource source).type.data) ∧
    (':' ∉ source.data → ResolveSource source = { type := "map", id := source }) := by
  refine ⟨?_, ?_, ?_⟩
  · intro kind id hs hk
    rw [hs]
    exact ResolveSource_split kind id hk
  · intro hc
    obtain ⟨pre, post, he, hn⟩ := exists_first_occurrence ':' source.data hc
    have hs : source = String.mk pre ++ ":" ++ String.mk post := by
      apply String.ext
      simp [String.data_append, he]
    have hr := ResolveSource_split (String.mk pre) (String.mk post) hn
    rw [← hs] at hr
    rw [hr]
    exact ⟨hs.symm, hn⟩
  · intro hc
    simp [ResolveSource, stdFind, findChar_eq_none ':' source.data hc]

/-- Witness for C6: a source with two colons is split at the first one, and a source without a
colon gets the type `map`. -/
theorem ResolveSource_spec_witness :
    ResolveSource "routing:osm:eu" = { type := "routing", id := "osm:eu" } ∧
    ResolveSource "carto.streets" = { type := "map", id := "carto.streets" } :=
  ⟨(ResolveSource_spec "routing:osm:eu").1 "routing" "osm:eu" (by decide) (by decide),
    (ResolveSource_spec "carto.streets").2.2 (by decide)⟩

/-! ### The tile-mask search -/

/-- Claim C3. The search of lines 164-171 returns the mask of the given tiles at a zoom in
`0..maxZoomLevel` above which no zoom up to `maxZoomLevel` has a string of length at most
`maxLength`; when some zoom in that range fits, the returned mask fits (so it is the mask at the
largest fitting zoom); in particular it fits whenever the zoom-0 mask fits; and when no zoom
fits it is the zoom-0 mask. -/
theorem tileMaskSearch_largest_fitting (getURLSafeStringValue : PackageTileMask → String)
    (maxLength : Nat) (tiles : List MapTile) (maxZoomLevel : Nat) :
    (tileMaskSearch getURLSafeStringValue maxLength tiles maxZoomLevel).tiles = tiles ∧
    (tileMaskSearch getURLSafeStringValue maxLength tiles maxZoomLevel).zoom ≤ maxZoomLevel ∧
    (∀ z, (tileMaskSearch getURLSafeStringValue maxLength tiles maxZoomLevel).zoom < z →
        z ≤ maxZoomLevel →
        ¬ (getURLSafeStringValue { tiles := tiles, zoom := z }).length ≤ maxLength) ∧
    ((∃ z, z ≤ maxZoomLevel ∧
          (getURLSafeStringValue { tiles := tiles, zoom := z }).length ≤ maxLength) →
        (getURLSafeStringValue
          (tileMaskSearch getURLSafeStringValue maxLength tiles maxZoomLevel)).length
          ≤ maxLength) ∧
    ((getURLSafeStringValue { tiles := tiles, zoom := 0 }).length ≤ maxLength →
        (getURLSafeStringValue
          (tileMaskSearch getURLSafeStringValue maxLength tiles maxZoomLevel)).length
          ≤ maxLength) ∧
    ((∀ z, z ≤ maxZoomLevel →
          ¬ (getURLSafeStringValue { tiles := tiles, zoom := z }).length ≤ maxLength) →
        tileMaskSearch getURLSafeStringValue maxLength tiles maxZoomLevel
          = { tiles := tiles, zoom := 0 }) := by
  induction maxZoomLevel with
  | zero =>
    refine ⟨rfl, le_refl _, ?_, ?_, ?_, ?_⟩
    · intro z hz hz0
      simp only [tileMaskSearch] at hz
      omega
    · rintro ⟨z, hz, hfit⟩
      have : z = 0 := by omega
      subst this
      exact hfit
    · intro h; exact h
    · intro _; rfl
  | succ n ih =>
    obtain ⟨i1, i2, i3, i4, i5, i6⟩ := ih
    by_cases hfit : (getURLSafeStringValue { tiles := tiles, zoom := n + 1 }).length ≤ maxLength
    · have he : tileMaskSearch getURLSafeStringValue maxLength tiles (n + 1)
          = { tiles := tiles, zoom := n + 1 } := by
        simp [tileMaskSearch, hfit]
      rw [he]
      refine ⟨rfl, le_refl _, ?_, fun _ => hfit, fun _ => hfit, ?_⟩
      · intro z hz hz1
        simp only at hz
        omega
      · intro hall
        exact absurd hfit (hall (n + 1) (le_refl _))
    · have he : tileMaskSearch getURLSafeStringValue maxLength tiles (n + 1)
          = tileMaskSearch getURLSafeStringValue maxLength tiles n := by
        simp [tileMaskSearch, hfit]
      rw [he]
      refine ⟨i1, by omega, ?_, ?_, i5, ?_⟩
      · intro z hz hz1
        by_cases hzn : z = n + 1
        · rw [hzn]; exact hfit
        · exact i3 z hz (by omega)
      · rintro ⟨z, hz, hz1⟩
        apply i4
        refine ⟨z, ?_, hz1⟩
        by_cases hzn : z = n + 1
        · rw [hzn] at hz1; exact absurd hz1 hfit
        · omega
      · intro hall
        exact i6 (fun z hz => hall z (by omega))

/-- Witness for C3: with a mask text of `zoom + 1` characters and `maxLength = 3`, the search
from zoom 12 returns the zoom-2 mask. -/
theorem tileMaskSearch_largest_fitting_witness :
    tileMaskSearch (sampleServices none).getURLSafeStringValue 3 [rootTile] 12
      = { tiles := [rootTile], zoom := 2 } ∧
    ((sampleServices none).getURLSafeStringValue
      (tileMaskSearch (sampleServices none).getURLSafeStringValue 3 [rootTile] 12)).length ≤ 3 :=
  ⟨by decide,
    (tileMaskSearch_largest_fitting (sampleServices none).getURLSafeStringValue 3 [rootTile]
      12).2.2.2.2.1 (by decide)⟩

/-! ### createPackageURL -/

/-- Claim C5. For every package id, version, base URL template and downloaded flag,
`createPackageURL` returns the empty (invalid) URL when the license provider holds no
`appToken`; and every URL it returns when a token is held is built from the template after
`ReplaceTags` has been run on it with the tag `key` bound to that token, so no result is built
from the raw template. -/
theorem createPackageURL_needs_token {D : Type} (svc : Services D) (packageId : String)
    (version : Int) (baseURL : String) (downloaded : Bool) :
    (svc.getParameter "appToken" = none →
        createPackageURL svc packageId version baseURL downloaded = "") ∧
    (∀ appToken, svc.getParameter "appToken" = some appToken →
        createPackageURL svc packageId version baseURL downloaded
          = svc.BuildURLFromParameters
              (svc.ReplaceTags baseURL [("key", appToken)] "\x7b" "\x7d" true)
              [("update", if downloaded then "1" else "0")]) := by
  constructor
  · intro h
    simp [createPackageURL, h]
  · intro appToken h
    simp [createPackageURL, h]

/-- Witness for C5: without a token the template is not turned into a URL, with the token
`tok` its placeholder is filled. -/
theorem createPackageURL_needs_token_witness :
    createPackageURL (sampleServices none) "pkg" 1 "http://host/\x7bkey\x7d/pkg.mbtiles" true = "" ∧
    createPackageURL (sampleServices (some "tok")) "pkg" 1 "http://host/\x7bkey\x7d/pkg.mbtiles" true
      = "http://host/tok/pkg.mbtiles?update=1" :=
  ⟨(createPackageURL_needs_token (sampleServices none) "pkg" 1
      "http://host/\x7bkey\x7d/pkg.mbtiles" true).1 (by decide), by decide⟩


/-! ### getCustomPackage -/

theorem infix_append_right (a b : String) : b.data <:+: (a ++ b).data := by
  rw [String.data_append]
  exact (List.suffix_append _ _).isInfix

theorem appendParameters_foldl_keeps_base (ps : List (String × String)) :
    ∀ url : String,
      url.data <+: (ps.foldl (fun url q => url ++ "&" ++ q.1 ++ "=" ++ q.2) url).data := by
  induction ps with
  | nil => intro url; exact List.prefix_refl _
  | cons p ps ih =>
    intro url
    refine List.IsPrefix.trans ?_ (ih _)
    simp only [String.data_append, List.append_assoc]
    exact List.prefix_append _ _

theorem appendParameters_keeps_base (base : String) (params : List (String × String)) :
    base.data <+: (appendParameters base params).data := by
  cases params with
  | nil => exact List.prefix_refl _
  | cons p ps =>
    refine List.IsPrefix.trans ?_ (appendParameters_foldl_keeps_base ps _)
    simp only [String.data_append, List.append_assoc]
    exact List.prefix_append _ _

/-- The call `getCustomPackage` on an identifier that matches the expression of line 133 and
whose four groups are cast to numbers. -/
theorem getCustomPackage_parsed {D : Type} [LinearOrder D] (svc : Services D)
    (_source packageId : String) (version : Int) (g1 g2 g3 g4 : String)
    (minLon minLat maxLon maxLat : D)
    (hmatch : matchBBox packageId = some (g1, g2, g3, g4))
    (h1 : svc.lexical_cast g1 = some minLon) (h2 : svc.lexical_cast g2 = some minLat)
    (h3 : svc.lexical_cast g3 = some maxLon) (h4 : svc.lexical_cast g4 = some maxLat) :
    getCustomPackage svc _source packageId version =
      if minLon ≥ maxLon ∨ minLat ≥ maxLat then none
      else customPackageForBounds svc _source packageId version minLon minLat maxLon maxLat := by
  simp only [getCustomPackage, hmatch, h1, h2, h3, h4]

/-- Claim C10. For every identifier that matches `bbox(minLon, minLat, maxLon, maxLat)` with
`minLon >= maxLon` or `minLat >= maxLat`, `getCustomPackage` returns the empty pointer, whatever
the source, the version and the collaborators (the token state among them). -/
theorem getCustomPackage_rejects_empty_box {D : Type} [LinearOrder D] (svc : Services D)
    (_source packageId : String) (version : Int) (g1 g2 g3 g4 : String)
    (minLon minLat maxLon maxLat : D)
    (hmatch : matchBBox packageId = some (g1, g2, g3, g4))
    (h1 : svc.lexical_cast g1 = some minLon) (h2 : svc.lexical_cast g2 = some minLat)
    (h3 : svc.lexical_cast g3 = some maxLon) (h4 : svc.lexical_cast g4 = some maxLat)
    (hempty : minLon ≥ maxLon ∨ minLat ≥ maxLat) :
    getCustomPackage svc _source packageId version = none := by
  rw [getCustomPackage_parsed svc _source packageId version g1 g2 g3 g4 minLon minLat maxLon
    maxLat hmatch h1 h2 h3 h4, if_pos hempty]

/-- Witness for C10: the identifier `bbox(2, -1, 1, 1)`. -/
theorem getCustomPackage_rejects_empty_box_witness :
    matchBBox "bbox(2, -1, 1, 1)" = some ("2", "-1", "1", "1") ∧
    getCustomPackage (sampleServices (some "tok")) "carto.streets" "bbox(2, -1, 1, 1)" 3 = none :=
  ⟨by decide,
    getCustomPackage_rejects_empty_box (sampleServices (some "tok")) "carto.streets"
      "bbox(2, -1, 1, 1)" 3 "2" "-1" "1" "1" 2 (-1) 1 1 (by decide) (by decide) (by decide)
      (by decide) (by decide) (Or.inl (by decide))⟩

/-- Claim C9. For every identifier that matches `bbox(minLon, minLat, maxLon, maxLat)` with
`minLon < maxLon` and `minLat < maxLat` whose tile selection succeeds, and every version,
`getCustomPackage` on a source of type `map` returns a descriptor with the identifier as id,
type Map, the requested version, size 0, no metadata and a URL that contains `.mbtiles`;
`BuildURLFromParameters` is assumed to keep the base URL as the beginning of its result. -/
theorem getCustomPackage_map_descriptor {D : Type} [LinearOrder D] (svc : Services D)
    (_source packageId : String) (version : Int) (g1 g2 g3 g4 : String)
    (minLon minLat maxLon maxLat : D)
    (hmatch : matchBBox packageId = some (g1, g2, g3, g4))
    (h1 : svc.lexical_cast g1 = some minLon) (h2 : svc.lexical_cast g2 = some minLat)
    (h3 : svc.lexical_cast g3 = some maxLon) (h4 : svc.lexical_cast g4 = some maxLat)
    (hlon : minLon < maxLon) (hlat : minLat < maxLat)
    (hmap : (ResolveSource _source).type = "map")
    (hwalk : (CalculateBBoxTiles MAX_CUSTOM_BBOX_PACKAGE_TILE_ZOOM MAX_CUSTOM_BBOX_PACKAGE_TILES
      (svc.intersects minLon minLat maxLon maxLat) rootTile []).1 = true)
    (hbuild : ∀ base params, base.data <+: (svc.BuildURLFromParameters base params).data) :
    ∃ info, getCustomPackage svc _source packageId version = some info ∧
      info.packageId = packageId ∧ info.packageType = PackageType.PACKAGE_TYPE_MAP ∧
      info.version = version ∧ info.size = 0 ∧ info.metaInfo = none ∧
      containsSubstring info.serverURL ".mbtiles" := by
  have hbox : ¬ (minLon ≥ maxLon ∨ minLat ≥ maxLat) := by
    rintro (h | h)
    · exact absurd hlon (not_lt.mpr h)
    · exact absurd hlat (not_lt.mpr h)
  rw [getCustomPackage_parsed svc _source packageId version g1 g2 g3 g4 minLon minLat maxLon
    maxLat hmatch h1 h2 h3 h4, if_neg hbox]
  simp only [customPackageForBounds, hwalk, Bool.not_true, Bool.false_eq_true, if_false,
    customPackageBaseURL, hmap, if_true]
  refine ⟨_, rfl, rfl, rfl, rfl, rfl, rfl, ?_⟩
  unfold containsSubstring
  exact List.IsInfix.trans (infix_append_right _ _) (hbuild _ _).isInfix

set_option maxRecDepth 100000 in
/-- Witness for C9: the identifier `bbox(-1, -1, 1, 1)` on the source `carto.streets`. -/
theorem getCustomPackage_map_descriptor_witness :
    matchBBox "bbox(-1, -1, 1, 1)" = some ("-1", "-1", "1", "1") ∧
    (ResolveSource "carto.streets").type = "map" ∧
    ∃ info, getCustomPackage (sampleServices (some "tok")) "carto.streets" "bbox(-1, -1, 1, 1)" 3
        = some info ∧
      info.packageId = "bbox(-1, -1, 1, 1)" ∧ info.packageType = PackageType.PACKAGE_TYPE_MAP ∧
      info.version = 3 ∧ info.size = 0 ∧ info.metaInfo = none ∧
      containsSubstring info.serverURL ".mbtiles" :=
  ⟨by decide, by decide,
    getCustomPackage_map_descriptor (sampleServices (some "tok")) "carto.streets"
      "bbox(-1, -1, 1, 1)" 3 "-1" "-1" "1" "1" (-1) (-1) 1 1 (by decide) (by decide) (by decide)
      (by decide) (by decide) (by decide) (by decide) (by decide) (by decide)
      appendParameters_keeps_base⟩


set_option maxRecDepth 100000 in
/-- Counterexample to C4: with a license provider that holds no `appToken`, `getCustomPackage`
on `bbox(-1, -1, 1, 1)` returns a descriptor, and its URL carries no token. -/
theorem getCustomPackage_without_token_counterexample :
    (sampleServices none).getParameter "appToken" = none ∧
    (getCustomPackage (sampleServices none) "carto.streets" "bbox(-1, -1, 1, 1)" 3).map
        (fun info => info.serverURL)
      = some ("http://mobile-api.carto.com/maparea/v2/carto.streets/1/AAAAAAAAAAAAA.mbtiles"
          ++ "?deviceId=device&platform=linux&sdk_build=1") := by
  decide

/-- Claim C4, amended. For every identifier that matches `bbox(...)` with a non-empty box whose
tile selection succeeds, and every source of type map, routing or geocoding, `getCustomPackage`
returns a descriptor whether or not the license provider holds an `appToken`: when it holds
none, the URL is built from the base URL of the source type with the parameters `deviceId`,
`platform` and `sdk_build` only; when it holds one, the parameter `appToken` is added
(lines 197-200). -/
theorem getCustomPackage_token_optional {D : Type} [LinearOrder D] (svc : Services D)
    (_source packageId : String) (version : Int) (g1 g2 g3 g4 : String)
    (minLon minLat maxLon maxLat : D)
    (hmatch : matchBBox packageId = some (g1, g2, g3, g4))
    (h1 : svc.lexical_cast g1 = some minLon) (h2 : svc.lexical_cast g2 = some minLat)
    (h3 : svc.lexical_cast g3 = some maxLon) (h4 : svc.lexical_cast g4 = some maxLat)
    (hlon : minLon < maxLon) (hlat : minLat < maxLat)
    (htype : (ResolveSource _source).type = "map" ∨ (ResolveSource _source).type = "routing" ∨
      (ResolveSource _source).type = "geocoding")
    (hwalk : (CalculateBBoxTiles MAX_CUSTOM_BBOX_PACKAGE_TILE_ZOOM MAX_CUSTOM_BBOX_PACKAGE_TILES
      (svc.intersects minLon minLat maxLon maxLat) rootTile []).1 = true)
      :
    ∃ info baseURL packageType tileMask,
      getCustomPackage svc _source packageId version = some info ∧
      info.tileMask = some tileMask ∧
      customPackageBaseURL svc (ResolveSource _source) tileMask = some (baseURL, packageType) ∧
      (svc.getParameter "appToken" = none →
        info.serverURL = svc.BuildURLFromParameters baseURL
          [("deviceId", svc.GetDeviceId), ("platform", svc.GetPlatformId),
            ("sdk_build", svc.GetSDKVersion)]) ∧
      (∀ appToken, svc.getParameter "appToken" = some appToken →
        info.serverURL = svc.BuildURLFromParameters baseURL
          [("appToken", appToken), ("deviceId", svc.GetDeviceId),
            ("platform", svc.GetPlatformId), ("sdk_build", svc.GetSDKVersion)]) := by
  have hbox : ¬ (minLon ≥ maxLon ∨ minLat ≥ maxLat) := by
    rintro (h | h)
    · exact absurd hlon (not_lt.mpr h)
    · exact absurd hlat (not_lt.mpr h)
  rw [getCustomPackage_parsed svc _source packageId version g1 g2 g3 g4 minLon minLat maxLon
    maxLat hmatch h1 h2 h3 h4, if_neg hbox]
  have hsome : ∀ mask, ∃ b, customPackageBaseURL svc (ResolveSource _source) mask = some b := by
    intro mask
    unfold customPackageBaseURL
    rcases htype with h | h | h
    · exact ⟨_, by rw [if_pos h]⟩
    · by_cases hm : (ResolveSource _source).type = "map"
      · exact ⟨_, by rw [if_pos hm]⟩
      · exact ⟨_, by rw [if_neg hm, if_pos h]⟩
    · by_cases hm : (ResolveSource _source).type = "map"
      · exact ⟨_, by rw [if_pos hm]⟩
      · by_cases hr : (ResolveSource _source).type = "routing"
        · exact ⟨_, by rw [if_neg hm, if_pos hr]⟩
        · exact ⟨_, by rw [if_neg hm, if_neg hr, if_pos h]⟩
  obtain ⟨⟨baseURL, packageType⟩, hb⟩ := hsome
    (tileMaskSearch svc.getURLSafeStringValue MAX_TILEMASK_LENGTH
      (CalculateBBoxTiles MAX_CUSTOM_BBOX_PACKAGE_TILE_ZOOM MAX_CUSTOM_BBOX_PACKAGE_TILES
        (svc.intersects minLon minLat maxLon maxLat) rootTile []).2
      MAX_CUSTOM_BBOX_PACKAGE_TILEMASK_ZOOMLEVEL)
  refine ⟨PackageInfo.mk packageId packageType version 0
      (svc.BuildURLFromParameters baseURL (customPackageParams svc)) (some _) none,
    baseURL, packageType, _, ?_, rfl, hb, ?_, ?_⟩
  · simp only [customPackageForBounds, hwalk, Bool.not_true, Bool.false_eq_true, if_false, hb]
  · intro htoken
    simp [customPackageParams, htoken]
  · intro appToken htoken
    simp [customPackageParams, htoken]

set_option maxRecDepth 100000 in
/-- Witness for the amended C4: the routing source `routing:carto.streets` without a token. -/
theorem getCustomPackage_token_optional_witness :
    (sampleServices none).getParameter "appToken" = none ∧
    ∃ info baseURL packageType tileMask,
      getCustomPackage (sampleServices none) "routing:carto.streets" "bbox(-1, -1, 1, 1)" 3
        = some info ∧
      info.tileMask = some tileMask ∧
      customPackageBaseURL (sampleServices none) (ResolveSource "routing:carto.streets") tileMask
        = some (baseURL, packageType) ∧
      ((sampleServices none).getParameter "appToken" = none →
        info.serverURL = (sampleServices none).BuildURLFromParameters baseURL
          [("deviceId", (sampleServices none).GetDeviceId),
            ("platform", (sampleServices none).GetPlatformId),
            ("sdk_build", (sampleServices none).GetSDKVersion)]) ∧
      (∀ appToken, (sampleServices none).getParameter "appToken" = some appToken →
        info.serverURL = (sampleServices none).BuildURLFromParameters baseURL
          [("appToken", appToken), ("deviceId", (sampleServices none).GetDeviceId),
            ("platform", (sampleServices none).GetPlatformId),
            ("sdk_build", (sampleServices none).GetSDKVersion)]) :=
  ⟨by decide,
    getCustomPackage_token_optional (sampleServices none) "routing:carto.streets"
      "bbox(-1, -1, 1, 1)" 3 "-1" "-1" "1" "1" (-1) (-1) 1 1 (by decide) (by decide) (by decide)
      (by decide) (by decide) (by decide) (by decide) (Or.inr (Or.inl (by decide)))
      (by decide)⟩

/-! ### The quadrant example -/

/-- Counterexample to C8: on the world of half width 180 the box `[0, 180] × [0, 180]` is the
zoom-1 tile `(1, 1)`. With `maxZoom = 2`, when tiles that only touch the box do not count as
intersecting, the walk lists 6 tiles (the root tile first); when they count, it lists 14. It
lists 5 in neither reading. -/
theorem CalculateBBoxTiles_quadrant_counterexample :
    CalculateBBoxTiles 2 MAX_CUSTOM_BBOX_PACKAGE_TILES (gridOverlaps 180 0 0 180 180) rootTile []
      = (true, [⟨0, 0, 0, 0⟩, ⟨1, 1, 1, 0⟩, ⟨2, 2, 2, 0⟩, ⟨3, 2, 2, 0⟩, ⟨2, 3, 2, 0⟩,
          ⟨3, 3, 2, 0⟩]) ∧
    (CalculateBBoxTiles 2 MAX_CUSTOM_BBOX_PACKAGE_TILES (gridIntersects 180 0 0 180 180)
      rootTile []).2.length = 14 := by
  decide

/-- Claim C8, amended. With `maxZoom = 2` and a budget of at least 6 tiles, for a box that
intersects, among the tiles the walk tests, exactly the root tile, one zoom-1 tile and the four
zoom-2 children of that tile, the selection from the root yields exactly 6 tiles: the root tile,
that zoom-1 tile and its four children. -/
theorem CalculateBBoxTiles_quadrant (intersects : MapTile → Bool) (maxCount : Nat)
    (hcount : 6 ≤ maxCount) (i : Nat) (hi : i < 4)
    (hroot : intersects rootTile = true)
    (hq : ∀ j, j < 4 → (intersects (rootTile.getChild j) = true ↔ j = i))
    (hc : ∀ k, k < 4 → intersects ((rootTile.getChild i).getChild k) = true) :
    CalculateBBoxTiles 2 maxCount intersects rootTile []
      = (true, [rootTile, rootTile.getChild i, (rootTile.getChild i).getChild 0,
          (rootTile.getChild i).getChild 1, (rootTile.getChild i).getChild 2,
          (rootTile.getChild i).getChild 3]) := by
  have hr : List.range 4 = [0, 1, 2, 3] := rfl
  have e1 : ∀ t, coveredTiles 2 intersects 1 t
      = if t.zoom > 2 then [] else if !intersects t then []
        else t :: (List.range 4).flatMap (fun k => coveredTiles 2 intersects 0 (t.getChild k)) :=
    fun _ => rfl
  have e2 : ∀ t, coveredTiles 2 intersects 2 t
      = if t.zoom > 2 then [] else if !intersects t then []
        else t :: (List.range 4).flatMap (fun k => coveredTiles 2 intersects 1 (t.getChild k)) :=
    fun _ => rfl
  have e3 : ∀ t, coveredTiles 2 intersects 3 t
      = if t.zoom > 2 then [] else if !intersects t then []
        else t :: (List.range 4).flatMap (fun k => coveredTiles 2 intersects 2 (t.getChild k)) :=
    fun _ => rfl
  have e0 : ∀ t, coveredTiles 2 intersects 0 t = [] := fun _ => rfl
  have hleaf : ∀ k, k < 4 →
      coveredTiles 2 intersects 1 ((rootTile.getChild i).getChild k)
        = [(rootTile.getChild i).getChild k] := by
    intro k hk
    have hz : ¬ ((rootTile.getChild i).getChild k).zoom > 2 := by
      simp [MapTile.getChild, rootTile]
    rw [e1]
    simp only [hz, hc k hk, if_false, Bool.not_true, Bool.false_eq_true, hr, e0,
      List.flatMap_cons, List.flatMap_nil, List.append_nil]
  have hlevel : ∀ j, j < 4 →
      coveredTiles 2 intersects 2 (rootTile.getChild j)
        = if j = i then [rootTile.getChild i, (rootTile.getChild i).getChild 0,
            (rootTile.getChild i).getChild 1, (rootTile.getChild i).getChild 2,
            (rootTile.getChild i).getChild 3] else [] := by
    intro j hj
    have hz : ¬ (rootTile.getChild j).zoom > 2 := by simp [MapTile.getChild, rootTile]
    by_cases hji : j = i
    · subst hji
      have hin := (hq j hj).mpr rfl
      rw [e2]
      simp only [hz, hin, if_false, Bool.not_true, Bool.false_eq_true, hr,
        List.flatMap_cons, List.flatMap_nil, List.append_nil, if_true]
      rw [hleaf 0 (by decide), hleaf 1 (by decide), hleaf 2 (by decide), hleaf 3 (by decide)]
      rfl
    · have hout : intersects (rootTile.getChild j) = false := by
        rw [← Bool.not_eq_true]
        exact fun h => hji ((hq j hj).mp h)
      rw [e2]
      simp [hz, hout, hji]
  have hz0 : ¬ rootTile.zoom > 2 := by simp [rootTile]
  have hcov : coveredTiles 2 intersects 3 rootTile
      = [rootTile, rootTile.getChild i, (rootTile.getChild i).getChild 0,
          (rootTile.getChild i).getChild 1, (rootTile.getChild i).getChild 2,
          (rootTile.getChild i).getChild 3] := by
    rw [e3]
    simp only [hz0, hroot, if_false, Bool.not_true, Bool.false_eq_true, hr, List.flatMap_cons,
      List.flatMap_nil, List.append_nil]
    rw [hlevel 0 (by decide), hlevel 1 (by decide), hlevel 2 (by decide), hlevel 3 (by decide)]
    interval_cases i <;> simp
  obtain ⟨hsucc, hlist⟩ := CalculateBBoxTiles_root 2 maxCount intersects
  rw [hcov] at hsucc hlist
  have hok : (CalculateBBoxTiles 2 maxCount intersects rootTile []).1 = true :=
    hsucc.mpr (by simpa using hcount)
  exact Prod.ext hok (hlist hok)

/-- Witness for the amended C8: the box `[0, 180] × [0, 180]` with touching tiles not counted. -/
theorem CalculateBBoxTiles_quadrant_witness :
    CalculateBBoxTiles 2 250000 (gridOverlaps 180 0 0 180 180) rootTile []
      = (true, [rootTile, rootTile.getChild 3, (rootTile.getChild 3).getChild 0,
          (rootTile.getChild 3).getChild 1, (rootTile.getChild 3).getChild 2,
          (rootTile.getChild 3).getChild 3]) :=
  CalculateBBoxTiles_quadrant (gridOverlaps 180 0 0 180 180) 250000 (by decide) 3 (by decide)
    (by decide) (by decide) (by decide)


/-! ### The style asset cache -/

theorem rowsOf_updateStyleFile (newAssetPackage : MemoryAssetPackage) (db : StyleDb)
    (fileName other : String) :
    rowsOf fileName (updateStyleFile newAssetPackage db other) =
      if other = fileName then
        (match newAssetPackage.loadAsset fileName with
          | some contents => [{ filename := fileName, contents := bindBlob contents }]
          | none => [])
      else rowsOf fileName db := by
  by_cases h : other = fileName
  · subst h
    rw [if_pos rfl]
    unfold updateStyleFile rowsOf sqlDelete sqlInsert
    cases newAssetPackage.loadAsset other with
    | none => simp [List.filter_filter]
    | some contents => simp [List.filter_filter, List.filter_append]
  · rw [if_neg h]
    unfold updateStyleFile rowsOf sqlDelete sqlInsert
    cases newAssetPackage.loadAsset other with
    | none =>
      simp only [List.filter_filter]
      apply List.filter_congr
      intro row _
      by_cases e : row.filename = fileName
      · simp [e, Ne.symm h]
      · simp [e]
    | some contents =>
      simp only [List.filter_append, List.filter_filter]
      have : List.filter (fun row : FileRow => row.filename == fileName)
          [{ filename := other, contents := bindBlob contents }] = [] := by
        simp [h]
      rw [this, List.append_nil]
      apply List.filter_congr
      intro row _
      by_cases e : row.filename = fileName
      · simp [e, Ne.symm h]
      · simp [e]

theorem rowsOf_update_loop (newAssetPackage : MemoryAssetPackage) (fileName : String) :
    ∀ (names : List String) (db : StyleDb),
      rowsOf fileName (names.foldl (updateStyleFile newAssetPackage) db) =
        if fileName ∈ names then
          (match newAssetPackage.loadAsset fileName with
            | some contents => [{ filename := fileName, contents := bindBlob contents }]
            | none => [])
        else rowsOf fileName db := by
  intro names
  induction names with
  | nil => intro db; simp
  | cons m ms ih =>
    intro db
    rw [List.foldl_cons, ih, rowsOf_updateStyleFile]
    by_cases h1 : fileName ∈ ms
    · simp [h1]
    · by_cases h2 : m = fileName
      · simp [h2]
      · have : ¬ fileName = m := fun e => h2 e.symm
        simp [h1, h2, this]

theorem lookup_filter_other (fileName name : String) (h : ¬ fileName = name) :
    ∀ m : List (String × Option BinaryData),
      (m.filter (fun p => p.1 != fileName)).lookup name = m.lookup name := by
  intro m
  induction m with
  | nil => rfl
  | cons p ps ih =>
    obtain ⟨k, v⟩ := p
    by_cases hk : k = fileName
    · subst hk
      have hne : (name == k) = false := by
        simp only [beq_eq_false_iff_ne, ne_eq]
        exact fun e => h e.symm
      simp only [List.filter_cons, bne_self_eq_false, Bool.false_eq_true, if_false, List.lookup,
        hne]
      exact ih
    · have hk2 : (k != fileName) = true := by simp [hk]
      simp only [List.filter_cons, hk2, if_true, List.lookup]
      rw [ih]

theorem lookup_mapAssign (m : List (String × Option BinaryData)) (fileName name : String)
    (contents : Option BinaryData) :
    (mapAssign m fileName contents).lookup name =
      if fileName = name then some contents else m.lookup name := by
  unfold mapAssign
  by_cases h : fileName = name
  · subst h
    simp [List.lookup]
  · have hne : (name == fileName) = false := by
      simp only [beq_eq_false_iff_ne, ne_eq]
      exact fun e => h e.symm
    rw [if_neg h, List.lookup, hne]
    exact lookup_filter_other fileName name h m

theorem lookup_read_loop (name : String) :
    ∀ (db : StyleDb) (m : List (String × Option BinaryData)),
      (db.foldl
          (fun updatedAssets row => mapAssign updatedAssets row.filename (columnBlob row.contents))
          m).lookup name =
        (rowsOf name db).foldl (fun _ row => some (columnBlob row.contents)) (m.lookup name) := by
  intro db
  induction db with
  | nil => intro m; rfl
  | cons row rest ih =>
    intro m
    rw [List.foldl_cons, ih, lookup_mapAssign]
    by_cases h : row.filename = name
    · simp [rowsOf, List.filter_cons, h]
    · simp [rowsOf, List.filter_cons, h]

theorem columnBlob_bindBlob (contents : BinaryData) :
    columnBlob (bindBlob contents) = if contents = [] then none else some contents := by
  unfold columnBlob bindBlob
  by_cases h : contents = []
  · simp [h]
  · simp [h]

/-- What `getStyleAssetPackage` resolves a file name of the stored package to, after
`updateStyle`: content of positive length to that content, a tombstone to the asset of the
bundled base package, and content of length zero to the empty pointer. -/
theorem updateStyle_then_read (env : StyleServices) (_source : String)
    (store : StyleStore) (styleName : String) (newAssetPackage : MemoryAssetPackage)
    (hupdate : env.update (if env.getSchema.isEmpty then _source ++ "/v1" else env.getSchema)
      styleName (getStyleAssetPackage env store styleName) = Except.ok (some newAssetPackage)) :
    (∀ fileName contents, newAssetPackage.localAssets.lookup fileName = some (some contents) →
      contents ≠ [] →
      (getStyleAssetPackage env (updateStyle env _source store styleName).2
        styleName).loadAsset fileName = some contents) ∧
    (∀ fileName, newAssetPackage.localAssets.lookup fileName = some none →
      (getStyleAssetPackage env (updateStyle env _source store styleName).2
        styleName).loadAsset fileName = env.CreateStyleAssetPackage fileName) ∧
    (∀ fileName, newAssetPackage.localAssets.lookup fileName = some (some []) →
      (getStyleAssetPackage env (updateStyle env _source store styleName).2
        styleName).loadAsset fileName = none) := by
  have hmem : ∀ (fileName : String) (v : Option BinaryData),
      newAssetPackage.localAssets.lookup fileName = some v →
      fileName ∈ newAssetPackage.getLocalAssetNames := by
    intro fileName v h
    unfold MemoryAssetPackage.getLocalAssetNames
    generalize newAssetPackage.localAssets = l at h
    induction l with
    | nil => simp [List.lookup] at h
    | cons p ps ih =>
      obtain ⟨k, w⟩ := p
      by_cases hk : fileName = k
      · simp [hk]
      · have hne : (fileName == k) = false := by simp [hk]
        rw [List.lookup, hne] at h
        simp [ih h]
  have hread : ∀ fileName, fileName ∈ newAssetPackage.getLocalAssetNames →
      (getStyleAssetPackage env (updateStyle env _source store styleName).2
        styleName).loadAsset fileName =
        match newAssetPackage.loadAsset fileName with
        | some contents => if contents = [] then none else some contents
        | none => env.CreateStyleAssetPackage fileName := by
    intro fileName hin
    have hstore : (updateStyle env _source store styleName).2 = Function.update store styleName
        (newAssetPackage.getLocalAssetNames.foldl (updateStyleFile newAssetPackage)
          (store styleName)) := by
      unfold updateStyle
      simp only [hupdate]
    rw [hstore]
    simp only [getStyleAssetPackage, MemoryAssetPackage.loadAsset, Function.update_same]
    rw [lookup_read_loop, rowsOf_update_loop, if_pos hin]
    cases hl : newAssetPackage.loadAsset fileName with
    | none =>
      simp only [MemoryAssetPackage.loadAsset] at hl
      simp [hl, List.lookup]
    | some contents =>
      simp only [MemoryAssetPackage.loadAsset] at hl
      simp only [hl, List.foldl_cons, List.foldl_nil, columnBlob_bindBlob]
  refine ⟨?_, ?_, ?_⟩
  · intro fileName contents h hne
    rw [hread fileName (hmem fileName _ h)]
    simp [MemoryAssetPackage.loadAsset, h, hne]
  · intro fileName h
    rw [hread fileName (hmem fileName _ h)]
    simp [MemoryAssetPackage.loadAsset, h]
  · intro fileName h
    rw [hread fileName (hmem fileName _ h)]
    simp [MemoryAssetPackage.loadAsset, h]

/-- An update with content of positive length and a tombstone: afterwards `a.json` reads as the
new bytes and `b.json` as the bundled base asset, not as the old bytes. -/
theorem updateStyle_then_read_example :
    (getStyleAssetPackage sampleStyleServices
        (updateStyle sampleStyleServices "carto.streets" sampleStyleStore "voyager").2
        "voyager").loadAsset "a.json" = some [1, 2] ∧
    (getStyleAssetPackage sampleStyleServices
        (updateStyle sampleStyleServices "carto.streets" sampleStyleStore "voyager").2
        "voyager").loadAsset "b.json" = sampleBaseAssets "b.json" :=
  ⟨(updateStyle_then_read sampleStyleServices "carto.streets" sampleStyleStore
      "voyager" _ rfl).1 "a.json" [1, 2] (by decide) (by decide),
    (updateStyle_then_read sampleStyleServices "carto.streets" sampleStyleStore
      "voyager" _ rfl).2.1 "b.json" (by decide)⟩

/-- Claim C7, at the input where the code departs from it. The updater returns a package that
gives `a.json` content of length zero. `updateStyle` stores it and returns true, and the next
`getStyleAssetPackage` resolves `a.json` to the empty pointer, not to that content: the row is
written by line 247 and read back through the pointer test of line 282, which takes content of
length zero for a NULL column. -/
theorem updateStyle_empty_content_reads_absent :
    (updateStyle emptyFileStyleServices "carto.streets" sampleStyleStore "voyager").1 = true ∧
    (updateStyle emptyFileStyleServices "carto.streets" sampleStyleStore "voyager").2 "voyager"
      = [{ filename := "b.json", contents := some [5, 5] },
         { filename := "a.json", contents := none }] ∧
    (getStyleAssetPackage emptyFileStyleServices
        (updateStyle emptyFileStyleServices "carto.streets" sampleStyleStore "voyager").2
        "voyager").loadAsset "a.json" = none ∧
    (getStyleAssetPackage emptyFileStyleServices
        (updateStyle emptyFileStyleServices "carto.streets" sampleStyleStore "voyager").2
        "voyager").loadAsset "a.json" ≠ some [] := by
  refine ⟨by decide, by decide, by decide, by decide⟩

end carto
